import Mathlib

/-!
Verification of `inline_forms/forms.py`, a Django forms module that declares:

  class PersonForm(ModelForm):
      class Meta:
          model = Person
          fields = '__all__'

  PersonFormSet = formset_factory(PersonForm, extra=1)
  PersonWithPetsFormSet =
      inlineformset_factory(Person, Pet, fields=('name', 'race', 'created_date',))

  class PetInline(InlineFormSetFactory):
      model = Pet
      fields = '__all__'

The module is pure configuration: it wires two data models into framework
factories.  The shallow embedding below therefore models (a) the two data
models, (b) the slice of the framework's form/formset semantics that the
four declarations configure (field derivation from a model, per-field
validation, formset counting, deletion marking, inline foreign-key hiding
and auto-assignment, save/error propagation), faithfully following the
framework's documented behaviour and defaults
(`formset_factory`: extra=1 here, can_delete=False, can_order=False,
min_num=0, max_num=1000; `inlineformset_factory`: extra=3, can_delete=True,
can_order=False, min_num=0, max_num=1000).
-/

namespace InlineForms

/-- A declared attribute of a data model: its name, whether a value is
required (blank not allowed), whether it is editable, and, when it is a
foreign key, the name of the model it references. -/
structure ModelField where
  name : String
  required : Bool
  editable : Bool
  fkTo : Option String
  deriving DecidableEq, Repr

/-- A data model: a named record type with a list of declared attributes. -/
structure Model where
  name : String
  fields : List ModelField
  deriving DecidableEq, Repr

/-- Modelled from the spec: `inline_forms/models.py` is not under `src/`.
Per the spec's data model, the dependent entity `Pet` has a name, a
category/"race" classifier, a creation timestamp, and a back-reference to
exactly one `Person` (a many-to-one relationship). -/
def Pet : Model :=
  ⟨"Pet",
   [⟨"name", true, true, none⟩,
    ⟨"race", true, true, none⟩,
    ⟨"created_date", true, true, none⟩,
    ⟨"person", true, true, some "Person"⟩]⟩

/-- Modelled from the spec: `inline_forms/models.py` is not under `src/`.
Per the spec, the parent entity `Person` has "an arbitrary set of
scalar/relational attributes", so its attribute list is a parameter. -/
def Person (attrs : List ModelField) : Model := ⟨"Person", attrs⟩

/-- The `fields` option of a model form / model formset factory: either the
sentinel `'__all__'` or an explicit tuple of field names. -/
inductive FieldsArg
  | all : FieldsArg
  | listed : List String → FieldsArg
  deriving DecidableEq, Repr

/-- The framework's derivation of form fields from a model: `'__all__'`
selects every editable model field; an explicit list selects the listed
model fields. -/
def fields_for_model (m : Model) : FieldsArg → List String
  | FieldsArg.all => (m.fields.filter (fun f => f.editable)).map (fun f => f.name)
  | FieldsArg.listed ns => ns.filter (fun n => (m.fields.map (fun f => f.name)).contains n)

/-- A model-form class: the bound model, the derived user-editable field
names, and the optional custom hooks a subclass could install (a custom
clean override and a custom save override).  The module under verification
installs none. -/
structure FormClass where
  model : Model
  fieldNames : List String
  customClean : Option (List (String × String) → List (String × List String))
  customSave : Option (List (String × String) → List (String × String))

/-- The framework's generic model-form factory: fields derived from the
model, no custom hooks. -/
def modelform (m : Model) (fa : FieldsArg) : FormClass :=
  ⟨m, fields_for_model m fa, none, none⟩

/-- The declaration `class PersonForm(ModelForm)` with `Meta.model = Person`,
`Meta.fields = '__all__'` and an otherwise empty class body. -/
def PersonForm (attrs : List ModelField) : FormClass :=
  modelform (Person attrs) FieldsArg.all

/-- A submitted-data mapping: ordered key/value pairs of form-field names
to raw submitted strings. -/
abbrev Data := List (String × String)

/-- First-binding lookup in a submitted-data mapping. -/
def lookupData (d : Data) (k : String) : Option String :=
  match d with
  | [] => none
  | (k₁, v) :: rest => if k₁ = k then some v else lookupData rest k

/-- The framework's generic per-field validation derived from the declared
attribute: a required field must be submitted with a non-empty value.
Returns the list of human-readable messages for the field. -/
def fieldErrors (f : ModelField) (v : Option String) : List String :=
  match v with
  | none => if f.required then ["This field is required."] else []
  | some s => if f.required && s == "" then ["This field is required."] else []

/-- Generic model-form validation: each declared form field is checked
against its model attribute; failures are collected as a mapping from
field name to its list of messages. -/
def genericFormErrors (fc : FormClass) (d : Data) : List (String × List String) :=
  (fc.model.fields.filter (fun f => fc.fieldNames.contains f.name)).filterMap
    (fun f =>
      let es := fieldErrors f (lookupData d f.name)
      if es.isEmpty then none else some (f.name, es))

/-- The framework computes cleaned data from the raw submission first and
hands it to any custom clean hook; with no hook installed the generic
per-field validation runs. -/
def cleanedData (fc : FormClass) (d : Data) : List (String × String) :=
  fc.fieldNames.filterMap (fun n => (lookupData d n).map (fun v => (n, v)))

/-- Form validation: the custom clean override when installed, otherwise
the generic per-field validation. -/
def formErrors (fc : FormClass) (d : Data) : List (String × List String) :=
  match fc.customClean with
  | some c => c (cleanedData fc d)
  | none => genericFormErrors fc d

/-- Validity (`is_valid`): no field has errors. -/
def formIsValid (fc : FormClass) (d : Data) : Bool :=
  (formErrors fc d).isEmpty

/-- Change detection (`has_changed`): some declared field was submitted with a non-empty
value (no initial data is configured anywhere in this module). -/
def formHasChanged (fc : FormClass) (d : Data) : Bool :=
  fc.fieldNames.any (fun n =>
    match lookupData d n with
    | some s => !(s == "")
    | none => false)

/-- The framework's formset options, as fixed by the factory call. -/
structure FormSetOptions where
  extra : Nat
  canDelete : Bool
  canOrder : Bool
  minNum : Nat
  maxNum : Nat
  deriving DecidableEq, Repr

/-- The framework's default ceiling on the number of forms. -/
def DEFAULT_MAX_NUM : Nat := 1000

/-- A formset class produced by `formset_factory`. -/
structure FormSet where
  form : FormClass
  opts : FormSetOptions

/-- The call `formset_factory(form, extra=e)` with every other option left at the
framework default: can_delete=False, can_order=False, min_num=0,
max_num=DEFAULT_MAX_NUM. -/
def formset_factory (form : FormClass) (extra : Nat) : FormSet :=
  ⟨form, ⟨extra, false, false, 0, DEFAULT_MAX_NUM⟩⟩

/-- The declaration `PersonFormSet = formset_factory(PersonForm, extra=1)`. -/
def PersonFormSet (attrs : List ModelField) : FormSet :=
  formset_factory (PersonForm attrs) 1

/-- The framework's total form count for an unbound formset:
`max(initial, min_num) + extra`, clipped at `max_num` (initial forms are
always shown even beyond `max_num`). -/
def totalFormCountUnbound (fs : FormSet) (initialCount : Nat) : Nat :=
  let total := max initialCount fs.opts.minNum + fs.opts.extra
  if fs.opts.maxNum < initialCount then initialCount
  else if fs.opts.maxNum < total then fs.opts.maxNum
  else total

/-- The hard ceiling on forms processed from a bound submission:
`max_num + DEFAULT_MAX_NUM`. -/
def absoluteMax (fs : FormSet) : Nat := fs.opts.maxNum + DEFAULT_MAX_NUM

/-- The number of forms processed from a bound submission whose management
form declares `total` forms. -/
def totalFormCountBound (fs : FormSet) (total : Nat) : Nat :=
  min total (absoluteMax fs)

/-- The reserved name of the per-form deletion-marking field the framework
adds when `can_delete` is set. -/
def DELETE : String := "DELETE"

/-- A submitted form is marked for deletion when the formset has
`can_delete` and its deletion field was submitted checked; without
`can_delete` the deletion field does not exist, so a submitted `DELETE`
key is just an undeclared key. -/
def markedForDeletion (canDelete : Bool) (d : Data) : Bool :=
  canDelete && (lookupData d DELETE == some "on")

/-- A bound formset's per-form validity: every form here has
`empty_permitted` (the module configures no initial data), so a form that
has not changed is valid vacuously; a form marked for deletion skips
validation; otherwise the form must validate. -/
def formsetFormValid (fc : FormClass) (canDelete : Bool) (d : Data) : Bool :=
  !(formHasChanged fc d) || markedForDeletion canDelete d || formIsValid fc d

/-- Formset validity (`FormSet.is_valid`) over the submitted per-form data mappings. -/
def formsetIsValid (fs : FormSet) (forms : List Data) : Bool :=
  forms.all (formsetFormValid fs.form fs.opts.canDelete)

/-- The non-empty, non-deleted forms of a submission, in order: the forms
the formset actually processes into results. -/
def formsetProcessedForms (fc : FormClass) (canDelete : Bool)
    (forms : List Data) : List Data :=
  (forms.filter (formHasChanged fc)).filter
    (fun d => !(markedForDeletion canDelete d))

/-- The cleaned results of a valid submission: one cleaned mapping per
non-empty, non-deleted form; empty forms contribute nothing. -/
def formsetCleanedResults (fs : FormSet) (forms : List Data) :
    List (List (String × String)) :=
  (formsetProcessedForms fs.form fs.opts.canDelete forms).map (cleanedData fs.form)

/-- The forms of a submission marked for deletion (`deleted_forms`):
empty unless the factory configured `can_delete`. -/
def formsetDeletedForms (fs : FormSet) (forms : List Data) : List Data :=
  if fs.opts.canDelete then
    forms.filter (fun d => lookupData d DELETE == some "on")
  else []

/-- The framework's search for the foreign key from the child model to the
parent model (`_get_foreign_key` with no `fk_name` given): the unique
child field referencing the parent model. -/
def _get_foreign_key (parent child : Model) : Option String :=
  match child.fields.filter (fun f => f.fkTo == some parent.name) with
  | [f] => some f.name
  | _ => none

/-- An inline formset class: the child model, the user-editable field
names (the foreign key to the parent is never among them), the name of
that foreign key — rendered as a hidden, auto-assigned field — and the
formset options. -/
structure InlineFormSet where
  model : Model
  userFields : List String
  fkName : String
  opts : FormSetOptions
  deriving DecidableEq, Repr

/-- The call `inlineformset_factory(parent, child, fields=fa)`: resolves the unique
foreign key from child to parent (an error — `none` — otherwise), derives
the form fields from `fa`, and removes the foreign key from the
user-editable fields (the framework replaces it with a hidden
`InlineForeignKeyField` bound to the parent instance). -/
def inlineformset_factory (parent child : Model) (fa : FieldsArg)
    (opts : FormSetOptions) : Option InlineFormSet :=
  (_get_foreign_key parent child).map (fun fk =>
    ⟨child, (fields_for_model child fa).filter (fun n => !(n == fk)), fk, opts⟩)

/-- The options `inlineformset_factory` uses when the call site passes
only `fields`: extra=3, can_delete=True, can_order=False, min_num=0,
max_num=DEFAULT_MAX_NUM. -/
def inlineFactoryDefaultOpts : FormSetOptions :=
  ⟨3, true, false, 0, DEFAULT_MAX_NUM⟩

/-- The declaration `PersonWithPetsFormSet = inlineformset_factory(Person, Pet,
fields=('name', 'race', 'created_date',))`. -/
def PersonWithPetsFormSet (attrs : List ModelField) : Option InlineFormSet :=
  inlineformset_factory (Person attrs) Pet
    (FieldsArg.listed ["name", "race", "created_date"]) inlineFactoryDefaultOpts

/-- The declaration `class PetInline(InlineFormSetFactory)` with `model = Pet` and
`fields = '__all__'`.  Modelled from the spec for the parent binding: the
view layer that instantiates this inline is not under `src/`; per the
spec it binds the dependent entity `Pet` to the parent entity `Person`.
`InlineFormSetFactory` forwards `model` and `fields` to
`inlineformset_factory` with no other factory keyword arguments, so the
same defaults apply. -/
def PetInline (attrs : List ModelField) : Option InlineFormSet :=
  inlineformset_factory (Person attrs) Pet FieldsArg.all inlineFactoryDefaultOpts

/-- The generated model form of an inline formset: the child model with
the user-editable fields, no custom hooks. -/
def inlineFormClass (i : InlineFormSet) : FormClass :=
  ⟨i.model, i.userFields, none, none⟩

/-- Validity (`is_valid`) of an inline formset over the submitted per-form data. -/
def inlineFormsetIsValid (i : InlineFormSet) (forms : List Data) : Bool :=
  forms.all (formsetFormValid (inlineFormClass i) i.opts.canDelete)

/-- A saved dependent record: the auto-assigned value of the foreign key
to the parent, and the cleaned user-field values. -/
structure SavedRecord where
  fkValue : String
  values : List (String × String)
  deriving DecidableEq, Repr

/-- Saving one submitted inline form against a parent instance: a form
marked for deletion produces no record; otherwise the record carries the
cleaned values and the parent reference is assigned automatically. -/
def inlineSaveForm (i : InlineFormSet) (parent : String) (d : Data) :
    Option SavedRecord :=
  if markedForDeletion i.opts.canDelete d then none
  else some ⟨parent, cleanedData (inlineFormClass i) d⟩

/-- Saving (`formset.save()`) an inline formset: every non-empty form is saved
against the parent instance; forms marked for deletion are removed. -/
def inlineFormsetSave (i : InlineFormSet) (parent : String)
    (forms : List Data) : List SavedRecord :=
  (forms.filter (formHasChanged (inlineFormClass i))).filterMap
    (inlineSaveForm i parent)

/-- The forms of an inline submission marked for deletion. -/
def inlineDeletedForms (i : InlineFormSet) (forms : List Data) : List Data :=
  if i.opts.canDelete then
    forms.filter (fun d => lookupData d DELETE == some "on")
  else []

/-- Saving through the external data layer: `dl` persists one record
given the (possibly missing) parent instance and the cleaned values, and
may fail with an exception (e.g. a referential-integrity violation when
the parent is missing).  The module installs no exception handler, so the
save loop stops at the first failure and returns that exception
unchanged. -/
def saveLoopDL (dl : Option String → List (String × String) → Except String SavedRecord)
    (parent : Option String) : List (List (String × String)) →
    Except String (List SavedRecord)
  | [] => Except.ok []
  | vs :: rest =>
    match dl parent vs with
    | Except.error e => Except.error e
    | Except.ok r =>
      match saveLoopDL dl parent rest with
      | Except.error e => Except.error e
      | Except.ok rs => Except.ok (r :: rs)

/-- Saving (`formset.save()`) an inline formset through the external data
layer: the non-empty, non-deleted forms are cleaned and persisted in
order, with no local recovery. -/
def inlineFormsetSaveDL (i : InlineFormSet)
    (dl : Option String → List (String × String) → Except String SavedRecord)
    (parent : Option String) (forms : List Data) :
    Except String (List SavedRecord) :=
  saveLoopDL dl parent
    ((formsetProcessedForms (inlineFormClass i) i.opts.canDelete forms).map
      (cleanedData (inlineFormClass i)))

/-- The kind of each module-level declarative symbol. -/
inductive SymbolKind
  | formClass
  | formsetClass
  | inlineBinding
  deriving DecidableEq, Repr

/-- The module-level symbols `forms.py` declares for the external view
layer, in source order, with their kinds. -/
def moduleSymbols : List (String × SymbolKind) :=
  [("PersonForm", SymbolKind.formClass),
   ("PersonFormSet", SymbolKind.formsetClass),
   ("PersonWithPetsFormSet", SymbolKind.inlineBinding),
   ("PetInline", SymbolKind.inlineBinding)]

end InlineForms


namespace InlineForms

/-! Helper lemmas about the embedded form machinery. -/

/-- Pointwise-equal predicates give equal `List.any` results. -/
theorem anyCongrAux {α : Type} (l : List α) (f g : α → Bool)
    (h : ∀ a ∈ l, f a = g a) : l.any f = l.any g := by
  induction l with
  | nil => rfl
  | cons x xs ih =>
    simp only [List.any_cons]
    rw [h x (by simp), ih (fun a ha => h a (by simp [ha]))]

/-- Lookup skips a leading binding with a different key. -/
theorem lookupData_cons_ne (k v n : String) (d : Data) (h : n ≠ k) :
    lookupData ((k, v) :: d) n = lookupData d n := by
  show (if k = n then some v else lookupData d n) = lookupData d n
  rw [if_neg (Ne.symm h)]

/-- Cleaned data ignores a submitted key that is not a declared field. -/
theorem cleanedData_cons_notMem (fc : FormClass) (k v : String) (d : Data)
    (h : k ∉ fc.fieldNames) :
    cleanedData fc ((k, v) :: d) = cleanedData fc d := by
  unfold cleanedData
  apply List.filterMap_congr
  intro a ha
  rw [lookupData_cons_ne k v a d (fun he => h (he ▸ ha))]

/-- Generic validation ignores a submitted key that is not a declared
field. -/
theorem genericFormErrors_cons_notMem (fc : FormClass) (k v : String) (d : Data)
    (h : k ∉ fc.fieldNames) :
    genericFormErrors fc ((k, v) :: d) = genericFormErrors fc d := by
  unfold genericFormErrors
  apply List.filterMap_congr
  intro f hf
  have hc : fc.fieldNames.contains f.name = true := (List.mem_filter.mp hf).2
  have hm : f.name ∈ fc.fieldNames := by simpa using hc
  rw [lookupData_cons_ne k v f.name d (fun he => h (he ▸ hm))]

/-- Change detection ignores a submitted key that is not a declared
field. -/
theorem formHasChanged_cons_notMem (fc : FormClass) (k v : String) (d : Data)
    (h : k ∉ fc.fieldNames) :
    formHasChanged fc ((k, v) :: d) = formHasChanged fc d := by
  unfold formHasChanged
  apply anyCongrAux
  intro a ha
  rw [lookupData_cons_ne k v a d (fun he => h (he ▸ ha))]

/-- A form with an empty submission has not changed. -/
theorem formHasChanged_nil (fc : FormClass) : formHasChanged fc [] = false := by
  have h : formHasChanged fc [] = fc.fieldNames.any (fun _ => false) := rfl
  rw [h]
  simp

/-- Every entry of the generic error mapping pairs a declared field name
with a non-empty message list. -/
theorem mem_genericFormErrors (fc : FormClass) (d : Data) (n : String)
    (msgs : List String) (h : (n, msgs) ∈ genericFormErrors fc d) :
    n ∈ fc.fieldNames ∧ msgs ≠ [] := by
  unfold genericFormErrors at h
  rw [List.mem_filterMap] at h
  obtain ⟨f, hf, heq⟩ := h
  by_cases hes : (fieldErrors f (lookupData d f.name)).isEmpty = true
  · simp only [hes, if_pos] at heq
    exact Option.noConfusion heq
  · simp only [hes, if_neg, Bool.not_eq_true] at heq
    have h1 : f.name = n := congrArg Prod.fst (Option.some.inj heq)
    have h2 : fieldErrors f (lookupData d f.name) = msgs :=
      congrArg Prod.snd (Option.some.inj heq)
    constructor
    · have hc : fc.fieldNames.contains f.name = true := (List.mem_filter.mp hf).2
      rw [← h1]
      simpa using hc
    · intro hnil
      rw [h2, hnil] at hes
      exact hes rfl

end InlineForms

namespace InlineForms

/-! The claims. -/

/-- Claim C1: the two inline dependent-formset declarations — the direct
factory call `PersonWithPetsFormSet` and the factory-derived class
`PetInline` — are equivalent: for every parent-attribute list, every
parent instance and every submitted-data mapping, both produce the same
formset class (same declared model, same user-editable field subset) and
the same validation and save behaviour. -/
theorem c1_inline_declarations_equivalent (attrs : List ModelField)
    (parent : String) (forms : List Data) :
    PetInline attrs = PersonWithPetsFormSet attrs ∧
    (PetInline attrs).map InlineFormSet.model =
      (PersonWithPetsFormSet attrs).map InlineFormSet.model ∧
    (PetInline attrs).map InlineFormSet.userFields =
      (PersonWithPetsFormSet attrs).map InlineFormSet.userFields ∧
    (PetInline attrs).map (fun i => inlineFormsetIsValid i forms) =
      (PersonWithPetsFormSet attrs).map (fun i => inlineFormsetIsValid i forms) ∧
    (PetInline attrs).map (fun i => inlineFormsetSave i parent forms) =
      (PersonWithPetsFormSet attrs).map (fun i => inlineFormsetSave i parent forms) :=
  ⟨rfl, rfl, rfl, rfl, rfl⟩

/-- Claim C2: the inline dependent formset exposes as user-editable
exactly the declared subset `name`, `race`, `created_date`; the
back-reference `person` is the hidden foreign-key field, never among the
user-editable fields, and every saved dependent record gets its parent
reference assigned automatically from the parent instance. -/
theorem c2_inline_editable_subset_and_hidden_fk (attrs : List ModelField)
    (i : InlineFormSet) (parent : String) (forms : List Data) (r : SavedRecord)
    (hi : PersonWithPetsFormSet attrs = some i)
    (hr : r ∈ inlineFormsetSave i parent forms) :
    i.userFields = ["name", "race", "created_date"] ∧
    i.fkName = "person" ∧
    i.fkName ∉ i.userFields ∧
    r.fkValue = parent := by
  have h0 : PersonWithPetsFormSet attrs =
      some ⟨Pet, ["name", "race", "created_date"], "person", inlineFactoryDefaultOpts⟩ := rfl
  rw [h0] at hi
  have hv : i = ⟨Pet, ["name", "race", "created_date"], "person", inlineFactoryDefaultOpts⟩ :=
    (Option.some.inj hi).symm
  subst hv
  refine ⟨rfl, rfl, by decide, ?_⟩
  obtain ⟨d0, hd0, hsave⟩ := List.mem_filterMap.mp hr
  unfold inlineSaveForm at hsave
  split at hsave
  · exact Option.noConfusion hsave
  · rw [← Option.some.inj hsave]

/-- Witness for C2: a concrete one-entry submission saved against parent
instance `p1`. -/
theorem c2_inline_editable_subset_witness :
    (⟨Pet, ["name", "race", "created_date"], "person", inlineFactoryDefaultOpts⟩ :
      InlineFormSet).userFields = ["name", "race", "created_date"] ∧
    (⟨Pet, ["name", "race", "created_date"], "person", inlineFactoryDefaultOpts⟩ :
      InlineFormSet).fkName = "person" ∧
    (⟨Pet, ["name", "race", "created_date"], "person", inlineFactoryDefaultOpts⟩ :
      InlineFormSet).fkName ∉
      (⟨Pet, ["name", "race", "created_date"], "person", inlineFactoryDefaultOpts⟩ :
        InlineFormSet).userFields ∧
    (⟨"p1", [("name", "Rex"), ("race", "Dog"), ("created_date", "2020-01-01")]⟩ :
      SavedRecord).fkValue = "p1" :=
  c2_inline_editable_subset_and_hidden_fk [] _ "p1"
    [[("name", "Rex"), ("race", "Dog"), ("created_date", "2020-01-01")]] _ rfl (by decide)

/-- Claim C3, counterexample: the parent formset is built with
`can_delete` left at False, so an entry submitted with its deletion flag
checked is NOT removed — it appears in no deleted-forms set and its
cleaned data is still produced — refuting that "existing entries can be
marked for removal". -/
theorem c3_removal_not_supported_counterexample :
    (PersonFormSet [⟨"name", true, true, none⟩]).opts.canDelete = false ∧
    formsetDeletedForms (PersonFormSet [⟨"name", true, true, none⟩])
      [[("name", "Alice"), ("DELETE", "on")]] = [] ∧
    formsetCleanedResults (PersonFormSet [⟨"name", true, true, none⟩])
      [[("name", "Alice"), ("DELETE", "on")]] = [[("name", "Alice")]] := by
  refine ⟨rfl, rfl, ?_⟩
  decide

/-- Claim C3 as amended: the repeatable parent form set supports adding
entries up to the framework-configured bound (every submission of at most
`absoluteMax` forms is processed in full), but provides no per-entry
removal mechanism: `can_delete` is False and no submission yields deleted
forms. -/
theorem c3_add_only_amended (attrs : List ModelField) (n : Nat)
    (forms : List Data) (hn : n ≤ absoluteMax (PersonFormSet attrs)) :
    totalFormCountBound (PersonFormSet attrs) n = n ∧
    (PersonFormSet attrs).opts.canDelete = false ∧
    formsetDeletedForms (PersonFormSet attrs) forms = [] := by
  refine ⟨?_, rfl, rfl⟩
  exact Nat.min_eq_left hn

/-- Witness for the amended C3: a five-form submission with a stray
deletion flag. -/
theorem c3_add_only_amended_witness :
    totalFormCountBound (PersonFormSet []) 5 = 5 ∧
    (PersonFormSet []).opts.canDelete = false ∧
    formsetDeletedForms (PersonFormSet []) [[("DELETE", "on")]] = [] :=
  c3_add_only_amended [] 5 [[("DELETE", "on")]] (by decide)

/-- Claim C4: when the repeatable parent form set is first rendered
(unbound, with no initial data), it contains exactly one blank sub-form. -/
theorem c4_unbound_formset_single_blank (attrs : List ModelField) :
    totalFormCountUnbound (PersonFormSet attrs) 0 = 1 := rfl

/-- Claim C5: the single-record parent form exposes every attribute of
the parent entity as an editable field, its validation is exactly the
generic model-form validation derived from the declared attributes, and
it declares no custom clean hook, no custom save hook, and nothing beyond
the generic model-form factory. -/
theorem c5_person_form_all_attributes (attrs : List ModelField) (d : Data)
    (h : ∀ f ∈ attrs, f.editable = true) :
    (PersonForm attrs).fieldNames = attrs.map (fun f => f.name) ∧
    formErrors (PersonForm attrs) d = genericFormErrors (PersonForm attrs) d ∧
    (PersonForm attrs).customClean = none ∧
    (PersonForm attrs).customSave = none ∧
    PersonForm attrs = modelform (Person attrs) FieldsArg.all := by
  refine ⟨?_, rfl, rfl, rfl, rfl⟩
  show (attrs.filter (fun f => f.editable)).map (fun f => f.name) = attrs.map (fun f => f.name)
  rw [List.filter_eq_self.mpr h]

/-- Witness for C5: a concrete two-attribute parent entity. -/
theorem c5_person_form_all_attributes_witness :
    (PersonForm [⟨"first_name", true, true, none⟩, ⟨"last_name", false, true, none⟩]).fieldNames =
      ["first_name", "last_name"] ∧
    formErrors
        (PersonForm [⟨"first_name", true, true, none⟩, ⟨"last_name", false, true, none⟩]) [] =
      genericFormErrors
        (PersonForm [⟨"first_name", true, true, none⟩, ⟨"last_name", false, true, none⟩]) [] ∧
    (PersonForm
        [⟨"first_name", true, true, none⟩, ⟨"last_name", false, true, none⟩]).customClean = none ∧
    (PersonForm
        [⟨"first_name", true, true, none⟩, ⟨"last_name", false, true, none⟩]).customSave = none ∧
    PersonForm [⟨"first_name", true, true, none⟩, ⟨"last_name", false, true, none⟩] =
      modelform (Person [⟨"first_name", true, true, none⟩, ⟨"last_name", false, true, none⟩])
        FieldsArg.all :=
  c5_person_form_all_attributes
    [⟨"first_name", true, true, none⟩, ⟨"last_name", false, true, none⟩] [] (by decide)

/-- Claim C6: a submitted key outside the declared subset
(`name`, `race`, `created_date`) of the inline dependent formset is
ignored: it is not among the formset's user-editable fields, and adding
it to a submission changes neither validity, nor change detection, nor
the cleaned data, nor the content of a saved dependent record. -/
theorem c6_undeclared_field_ignored (attrs : List ModelField)
    (i : InlineFormSet) (k v : String) (d : Data) (parent : String) (r : SavedRecord)
    (hi : PersonWithPetsFormSet attrs = some i)
    (hk : k ∉ (["name", "race", "created_date"] : List String))
    (hr : inlineSaveForm i parent ((k, v) :: d) = some r) :
    k ∉ i.userFields ∧
    formIsValid (inlineFormClass i) ((k, v) :: d) = formIsValid (inlineFormClass i) d ∧
    formHasChanged (inlineFormClass i) ((k, v) :: d) = formHasChanged (inlineFormClass i) d ∧
    cleanedData (inlineFormClass i) ((k, v) :: d) = cleanedData (inlineFormClass i) d ∧
    r.values = cleanedData (inlineFormClass i) d ∧
    r.fkValue = parent := by
  have h0 : PersonWithPetsFormSet attrs =
      some ⟨Pet, ["name", "race", "created_date"], "person", inlineFactoryDefaultOpts⟩ := rfl
  rw [h0] at hi
  have hv : i = ⟨Pet, ["name", "race", "created_date"], "person", inlineFactoryDefaultOpts⟩ :=
    (Option.some.inj hi).symm
  subst hv
  have hk2 : k ∉ (inlineFormClass
      ⟨Pet, ["name", "race", "created_date"], "person", inlineFactoryDefaultOpts⟩).fieldNames := hk
  have hce : cleanedData (inlineFormClass
        ⟨Pet, ["name", "race", "created_date"], "person", inlineFactoryDefaultOpts⟩)
        ((k, v) :: d) =
      cleanedData (inlineFormClass
        ⟨Pet, ["name", "race", "created_date"], "person", inlineFactoryDefaultOpts⟩) d :=
    cleanedData_cons_notMem _ k v d hk2
  refine ⟨hk, ?_, ?_, hce, ?_, ?_⟩
  · show (formErrors _ ((k, v) :: d)).isEmpty = (formErrors _ d).isEmpty
    exact congrArg List.isEmpty (genericFormErrors_cons_notMem _ k v d hk2)
  · exact formHasChanged_cons_notMem _ k v d hk2
  · unfold inlineSaveForm at hr
    split at hr
    · exact Option.noConfusion hr
    · rw [← Option.some.inj hr]
      exact hce
  · unfold inlineSaveForm at hr
    split at hr
    · exact Option.noConfusion hr
    · rw [← Option.some.inj hr]

/-- Witness for C6: the stray key `color` added to a one-pet submission. -/
theorem c6_undeclared_field_ignored_witness :
    "color" ∉ (⟨Pet, ["name", "race", "created_date"], "person", inlineFactoryDefaultOpts⟩ :
      InlineFormSet).userFields ∧
    formIsValid (inlineFormClass
        ⟨Pet, ["name", "race", "created_date"], "person", inlineFactoryDefaultOpts⟩)
        (("color", "blue") :: [("name", "Rex")]) =
      formIsValid (inlineFormClass
        ⟨Pet, ["name", "race", "created_date"], "person", inlineFactoryDefaultOpts⟩)
        [("name", "Rex")] ∧
    formHasChanged (inlineFormClass
        ⟨Pet, ["name", "race", "created_date"], "person", inlineFactoryDefaultOpts⟩)
        (("color", "blue") :: [("name", "Rex")]) =
      formHasChanged (inlineFormClass
        ⟨Pet, ["name", "race", "created_date"], "person", inlineFactoryDefaultOpts⟩)
        [("name", "Rex")] ∧
    cleanedData (inlineFormClass
        ⟨Pet, ["name", "race", "created_date"], "person", inlineFactoryDefaultOpts⟩)
        (("color", "blue") :: [("name", "Rex")]) =
      cleanedData (inlineFormClass
        ⟨Pet, ["name", "race", "created_date"], "person", inlineFactoryDefaultOpts⟩)
        [("name", "Rex")] ∧
    (⟨"p1", [("name", "Rex")]⟩ : SavedRecord).values =
      cleanedData (inlineFormClass
        ⟨Pet, ["name", "race", "created_date"], "person", inlineFactoryDefaultOpts⟩)
        [("name", "Rex")] ∧
    (⟨"p1", [("name", "Rex")]⟩ : SavedRecord).fkValue = "p1" :=
  c6_undeclared_field_ignored [] _ "color" "blue" [("name", "Rex")] "p1" _
    rfl (by decide) (by decide)

/-- Claim C7: submitting the parent formset with only the one blank
default form is valid and produces no cleaned results (a no-op); in
general the formset validates exactly when every non-empty sub-form
validates, empty forms being ignored. -/
theorem c7_empty_submission_valid_noop (attrs : List ModelField) (forms : List Data) :
    formsetIsValid (PersonFormSet attrs) [[]] = true ∧
    formsetCleanedResults (PersonFormSet attrs) [[]] = [] ∧
    (formsetIsValid (PersonFormSet attrs) forms = true ↔
      ∀ d ∈ forms, formHasChanged (PersonForm attrs) d = true →
        formIsValid (PersonForm attrs) d = true) := by
  refine ⟨?_, ?_, ?_⟩
  · simp [formsetIsValid, formsetFormValid, formHasChanged_nil]
  · simp [formsetCleanedResults, formsetProcessedForms, formHasChanged_nil,
      List.filter_cons, formHasChanged_nil]
  · simp only [formsetIsValid, formsetFormValid, markedForDeletion, List.all_eq_true,
      PersonFormSet, formset_factory]
    constructor
    · intro h d hd hc
      have h1 := h d hd
      simp only [hc] at h1
      simpa using h1
    · intro h d hd
      rcases Bool.eq_false_or_eq_true (formHasChanged (PersonForm attrs) d) with h1 | h1
      · simp [h1, h d hd h1]
      · simp [h1]

/-- Claim C8: every validation failure of the declared forms is a mapping
from a declared field name to a non-empty list of human-readable
messages (shown for `PersonForm` and for the inline dependent form), and
an exception raised by the external data layer during save — e.g. a
referential-integrity failure when the parent instance is missing —
propagates to the caller unchanged. -/
theorem c8_field_error_mapping_and_propagation (attrs : List ModelField)
    (i : InlineFormSet) (d d₂ d₃ : Data) (n n₂ : String) (msgs msgs₂ : List String)
    (dl : Option String → List (String × String) → Except String SavedRecord)
    (parent : Option String) (e : String) (rest : List Data)
    (hi : PersonWithPetsFormSet attrs = some i)
    (h₁ : (n, msgs) ∈ formErrors (PersonForm attrs) d)
    (h₂ : (n₂, msgs₂) ∈ formErrors (inlineFormClass i) d₂)
    (hch : formHasChanged (inlineFormClass i) d₃ = true)
    (hnd : markedForDeletion i.opts.canDelete d₃ = false)
    (hdl : dl parent (cleanedData (inlineFormClass i) d₃) = Except.error e) :
    (n ∈ (PersonForm attrs).fieldNames ∧ msgs ≠ []) ∧
    (n₂ ∈ (inlineFormClass i).fieldNames ∧ msgs₂ ≠ []) ∧
    inlineFormsetSaveDL i dl parent (d₃ :: rest) = Except.error e := by
  refine ⟨mem_genericFormErrors _ d n msgs h₁, mem_genericFormErrors _ d₂ n₂ msgs₂ ?_, ?_⟩
  · have h0 : PersonWithPetsFormSet attrs =
        some ⟨Pet, ["name", "race", "created_date"], "person", inlineFactoryDefaultOpts⟩ := rfl
    rw [h0] at hi
    have hv : i = ⟨Pet, ["name", "race", "created_date"], "person", inlineFactoryDefaultOpts⟩ :=
      (Option.some.inj hi).symm
    subst hv
    exact h₂
  · have hnd2 : (!(markedForDeletion i.opts.canDelete d₃)) = true := by rw [hnd]; rfl
    unfold inlineFormsetSaveDL formsetProcessedForms
    simp only [List.filter_cons, hch, hnd2, if_true, List.map_cons]
    unfold saveLoopDL
    rw [hdl]

/-- Witness for C8: a missing required `name` on both forms, and a data
layer failing with an integrity error on a missing parent. -/
theorem c8_field_error_mapping_witness :
    ("name" ∈ (PersonForm [⟨"name", true, true, none⟩]).fieldNames ∧
      ["This field is required."] ≠ ([] : List String)) ∧
    ("name" ∈ (inlineFormClass
        ⟨Pet, ["name", "race", "created_date"], "person",
          inlineFactoryDefaultOpts⟩).fieldNames ∧
      ["This field is required."] ≠ ([] : List String)) ∧
    inlineFormsetSaveDL
        ⟨Pet, ["name", "race", "created_date"], "person", inlineFactoryDefaultOpts⟩
        (fun _ _ => Except.error "IntegrityError") none [[("name", "Rex")]] =
      Except.error "IntegrityError" :=
  c8_field_error_mapping_and_propagation [⟨"name", true, true, none⟩] _
    [] [] [("name", "Rex")] "name" "name" ["This field is required."]
    ["This field is required."] (fun _ _ => Except.error "IntegrityError") none
    "IntegrityError" [] rfl (by decide) (by decide) (by decide) (by decide) rfl

/-- Claim C9, counterexample: the module declares four module-level
symbols for the view layer, not three. -/
theorem c9_not_three_symbols_counterexample : ¬ moduleSymbols.length = 3 := by
  decide

/-- Claim C9 as amended: the module exposes exactly four declarative
symbols in three kinds — one single-record form class, one formset class
over that form, and two (equivalent) inline-formset bindings of the
dependent entity to the parent entity. -/
theorem c9_four_symbols_amended :
    moduleSymbols.length = 4 ∧
    (moduleSymbols.filter (fun s => s.2 == SymbolKind.formClass)).length = 1 ∧
    (moduleSymbols.filter (fun s => s.2 == SymbolKind.formsetClass)).length = 1 ∧
    (moduleSymbols.filter (fun s => s.2 == SymbolKind.inlineBinding)).length = 2 := by
  decide

/-- Claim C10: the two formset declarations differ in their deletion
contract: the parent formset (plain factory, only `extra=1` passed) has
`can_delete` False and never yields deleted forms, while the inline
dependent formset (inline factory defaults) has `can_delete` True, every
submitted entry flagged for deletion lands in its deleted forms, and a
flagged entry is not saved. -/
theorem c10_deletion_contract_difference (attrs : List ModelField)
    (i : InlineFormSet) (forms : List Data) (d : Data) (parent : String)
    (hi : PersonWithPetsFormSet attrs = some i)
    (hd : d ∈ forms) (hmark : lookupData d DELETE = some "on") :
    (PersonFormSet attrs).opts.canDelete = false ∧
    formsetDeletedForms (PersonFormSet attrs) forms = [] ∧
    i.opts.canDelete = true ∧
    d ∈ inlineDeletedForms i forms ∧
    inlineSaveForm i parent d = none := by
  have h0 : PersonWithPetsFormSet attrs =
      some ⟨Pet, ["name", "race", "created_date"], "person", inlineFactoryDefaultOpts⟩ := rfl
  rw [h0] at hi
  have hv : i = ⟨Pet, ["name", "race", "created_date"], "person", inlineFactoryDefaultOpts⟩ :=
    (Option.some.inj hi).symm
  subst hv
  refine ⟨rfl, rfl, ?_, ?_, ?_⟩
  · decide
  · show d ∈ forms.filter (fun x => lookupData x DELETE == some "on")
    exact List.mem_filter.mpr ⟨hd, by rw [hmark]; rfl⟩
  · simp [inlineSaveForm, markedForDeletion, inlineFactoryDefaultOpts, hmark]

/-- Witness for C10: a single entry flagged for deletion. -/
theorem c10_deletion_contract_witness :
    (PersonFormSet []).opts.canDelete = false ∧
    formsetDeletedForms (PersonFormSet []) [[("DELETE", "on")]] = [] ∧
    (⟨Pet, ["name", "race", "created_date"], "person", inlineFactoryDefaultOpts⟩ :
      InlineFormSet).opts.canDelete = true ∧
    [("DELETE", "on")] ∈ inlineDeletedForms
      ⟨Pet, ["name", "race", "created_date"], "person", inlineFactoryDefaultOpts⟩
      [[("DELETE", "on")]] ∧
    inlineSaveForm
        ⟨Pet, ["name", "race", "created_date"], "person", inlineFactoryDefaultOpts⟩
        "p1" [("DELETE", "on")] = none :=
  c10_deletion_contract_difference [] _ [[("DELETE", "on")]] [("DELETE", "on")] "p1"
    rfl (by decide) rfl

end InlineForms
